import Mathlib

/-!
# sqlquery: a shallow embedding of `sql.go`

The file models the generic `Querier[T]` of package `sqlquery`:

* interface values (`any`) are the inductive `AnyVal`, whose constructors are the
  shapes the type switch of `scanableItems.add` can tell apart;
* Go's `error` is `Option Error` (`none` is `nil`), a slice result `[]T` is
  `Option (List T)` (`none` is the nil slice, `some []` an initialised empty one);
* the driver objects (`DBTX`, `*sql.Rows`, `*sql.Row`) are behaviours supplied by the
  caller, and every call made on them is recorded in a trace of `Event`s, so that
  what is executed, scanned and closed can be observed.
-/

set_option autoImplicit false

namespace Sqlquery

/-! ## Errors -/

/-- Go error values: an error carrying a message, or the value built by `errors.Join`,
which keeps the errors it wraps in order. -/
inductive Error where
  | msg (text : String)
  | join (errs : List Error)

/-- The standard `errors.Join(errs...)`: nil errors are discarded; the result is nil when
nothing remains, otherwise a joined error wrapping the remaining ones in order. -/
def errorsJoin (errs : List (Option Error)) : Option Error :=
  match errs.filterMap id with
  | [] => none
  | e :: es => some (Error.join (e :: es))

/-! ## Interface values and the type switch -/

/-- Element types of pointers that do not implement `Scaneable`. -/
inductive Elem where
  | int | int8 | int16 | int32 | int64
  | uint | uint8 | uint16 | uint32 | uint64
  | string | bytes
  | bool | float32 | float64
  | named (typeName : String)
  deriving DecidableEq, Repr

/-- A value of static type `any`, classified by its dynamic type.
* `nil`: the nil interface;
* `scaneable id fields`: a value whose dynamic type implements `Scaneable`; `fields` is
  what its `Fields()` returns;
* `scaneables elems`: a value of dynamic type `[]Scaneable`;
* `ptr elem addr`: a pointer `*elem` to the variable at `addr`, of a type without a
  `Fields` method;
* `other descr`: any other value. -/
inductive AnyVal where
  | nil
  | scaneable (id : Nat) (fields : List AnyVal)
  | scaneables (elems : List AnyVal)
  | ptr (elem : Elem) (addr : Nat)
  | other (descr : String)

/-- The type assertion `item.(Scaneable)` followed by `Fields()`. -/
def AnyVal.Fields : AnyVal → Option (List AnyVal)
  | .scaneable _ fields => some fields
  | _ => none

/-- Whether the dynamic type implements `Scaneable` (first arm of the switch). -/
def AnyVal.isScaneable : AnyVal → Bool
  | .scaneable _ _ => true
  | _ => false

/-- Whether the dynamic type is `[]Scaneable` (second arm of the switch). -/
def AnyVal.isScaneableSlice : AnyVal → Bool
  | .scaneables _ => true
  | _ => false

/-- The pointer types of the third arm of the switch, as written in the source:
`*int, *int8, *int32, *int64, *uint, *uint8, *uint64, *uint16, *string, *[]byte`. -/
def Elem.inSwitch : Elem → Bool
  | .int | .int8 | .int32 | .int64 | .uint | .uint8 | .uint64 | .uint16 | .string | .bytes => true
  | _ => false

/-- Whether the dynamic type is one of the pointer types of the third arm. -/
def AnyVal.isSwitchPtr : AnyVal → Bool
  | .ptr elem _ => elem.inSwitch
  | _ => false

/-- The slice type `scanableItems []any`; the nil slice is the empty list. -/
abbrev scanableItems := List AnyVal

mutual
/-- The method `(s *scanableItems) add(item any) (found bool)`: the updated `*s` and the
returned boolean. Each arm assigns the named result `found`, and the final statement
`return false` overrides it. -/
def add (s : scanableItems) : AnyVal → scanableItems × Bool
  | .scaneable _ fields =>
    -- *s = append(*s, i.Fields()...); found = true
    (s ++ fields, false)
  | .scaneables i =>
    -- found = len(i) > 0; for _, ii := range i ...
    ((add.range s i (decide (i.length > 0))).1, false)
  | .ptr elem addr =>
    if elem.inSwitch then
      -- *s = append(*s, i); found = true
      (s ++ [.ptr elem addr], false)
    else (s, false)
  | .nil => (s, false)
  | .other _ => (s, false)
/-- The loop `for _, ii := range i { if !s.add(ii) { found = false } }`, carrying `*s`
and the local `found`. -/
def add.range (s : scanableItems) : List AnyVal → Bool → scanableItems × Bool
  | [], found => (s, found)
  | ii :: rest, found =>
    let r := add s ii
    add.range r.1 rest (if !r.2 then false else found)
end

/-- The function `newScanableItems(items ...any)`: starting from the nil slice, `add`
every item, ignoring what `add` returns. -/
def newScanableItems (items : List AnyVal) : scanableItems :=
  items.foldl (fun s item => (add s item).1) []

/-- The method `(s *scanableItems) values() []any`. -/
def scanableItems.values (s : scanableItems) : List AnyVal := s

/-! ## The driver objects -/

/-- A `context.Context`, passed through to the handle untouched. -/
structure Context where
  id : Nat
  deriving DecidableEq, Repr

/-- What `Scan(dest...)` does on one row when `val` holds `v` and `dest` are the slots
resolved from `&val`: the contents of `val` afterwards, and the returned error. -/
abbrev ScanFn (T : Type) := List AnyVal → T → T × Option Error

/-- Behaviour of a `*sql.Rows` cursor: the rows that successive `Next()` calls position
on (after the last one `Next()` returns false), the result of `Close()` and the result
of `Err()`. -/
structure Rows (T : Type) where
  rows : List (ScanFn T)
  closeResult : Option Error
  iterErr : Option Error

/-- Behaviour of a `*sql.Row`: its `Scan` and the result of `Err()`. -/
structure Row (T : Type) where
  scan : ScanFn T
  err : Option Error

/-- The part of the `DBTX` interface that the querier calls (`ExecContext` and
`PrepareContext` are declared but never called). -/
structure DBTX (T : Type) where
  QueryContext : Context → String → List AnyVal → Except Error (Rows T)
  QueryRowContext : Context → String → List AnyVal → Row T

/-- Calls made on the driver objects, in the order they happen. -/
inductive Event where
  | queryContext (ctx : Context) (query : String) (args : List AnyVal)
  | queryRowContext (ctx : Context) (query : String) (args : List AnyVal)
  | rowsNext
  | rowsScan (dest : List AnyVal)
  | rowsClose
  | rowsErr
  | rowScan (dest : List AnyVal)
  | rowErr

/-- Whether the event is a `Close()` call on the cursor. -/
def Event.isClose : Event → Bool
  | .rowsClose => true
  | _ => false

/-- The type parameter `T` as the code uses it: the zero value that `var val T` holds,
and the interface value obtained when `&val` is passed as `any`. -/
structure ResultType (T : Type) where
  zero : T
  ref : AnyVal

/-- The struct `Querier[T]`. -/
structure Querier (T : Type) where
  db : DBTX T

/-- What a call returns (`val`, `err`) together with the calls it made on the driver. -/
structure Call (α : Type) where
  val : α
  err : Option Error
  trace : List Event

/-! ## The querier -/

/-- The constructor `New[T](db)`. -/
def New {T : Type} (db : DBTX T) : Querier T := ⟨db⟩

/-- The method `WithTx(db)`: a fresh querier bound to `db`. -/
def Querier.WithTx {T : Type} (_q : Querier T) (db : DBTX T) : Querier T := ⟨db⟩

/-- The loop `for raws.Next() { ... }` of `Query`, by recursion on the rows the cursor
has yet to yield. The result is the scan error that made the loop return early (if
any), the accumulated `items`, and the calls made on the cursor. -/
def Query.loop {T : Type} (rt : ResultType T) :
    List (ScanFn T) → List T → Option Error × List T × List Event
  | [], items =>
    -- raws.Next() is false
    (none, items, [Event.rowsNext])
  | row :: rest, items =>
    -- raws.Next() is true
    let scanables := newScanableItems [rt.ref]
    match row scanables.values rt.zero with
    | (_, some err) =>
      -- return nil, err
      (some err, items, [Event.rowsNext, Event.rowsScan scanables.values])
    | (val, none) =>
      let r := Query.loop rt rest (items ++ [val])
      (r.1, r.2.1, Event.rowsNext :: Event.rowsScan scanables.values :: r.2.2)

/-- The method `Query(ctx, query, args...)`. -/
def Query {T : Type} (rt : ResultType T) (q : Querier T) (ctx : Context) (query : String)
    (args : List AnyVal) : Call (Option (List T)) :=
  match q.db.QueryContext ctx query args with
  | .error err => ⟨none, some err, [Event.queryContext ctx query args]⟩
  | .ok raws =>
    -- var items = make([]T, 0)
    match Query.loop rt raws.rows [] with
    | (some err, _, evs) => ⟨none, some err, Event.queryContext ctx query args :: evs⟩
    | (none, items, evs) =>
      ⟨some items, errorsJoin [raws.closeResult, raws.iterErr],
        Event.queryContext ctx query args :: (evs ++ [Event.rowsClose, Event.rowsErr])⟩

/-- The verb `%d` applied to one integer operand inside a format string. -/
def formatD : List Char → Int → List Char
  | '%' :: 'd' :: rest, n => (toString n).data ++ formatD rest n
  | c :: rest, n => c :: formatD rest n
  | [], _ => []

/-- The call `fmt.Fprintf(w, format, n)` on a `strings.Builder` whose contents are `w`:
the new contents and the returned error (writing to a builder never fails). -/
def Fprintf (w : String) (format : String) (n : Int) : String × Option Error :=
  (w ++ String.mk (formatD format.data n), none)

/-- The method `PaginateQuery(ctx, skip, limit, query, args...)`. -/
def PaginateQuery {T : Type} (rt : ResultType T) (q : Querier T) (ctx : Context)
    (skip limit : Int) (query : String) (args : List AnyVal) : Call (Option (List T)) :=
  -- baseQuery := &strings.Builder{}; baseQuery.WriteString(query)
  let baseQuery := "" ++ query
  match (if limit > 0 then Fprintf baseQuery " LIMIT %d " limit else (baseQuery, none)) with
  | (_, some err) => ⟨none, some err, []⟩
  | (baseQuery, none) =>
    match (if skip > 0 then Fprintf baseQuery " OFFSET %d " skip else (baseQuery, none)) with
    | (_, some err) => ⟨none, some err, []⟩
    | (baseQuery, none) => Query rt q ctx baseQuery args

/-- The method `QueryOne(ctx, query)`. -/
def QueryOne {T : Type} (rt : ResultType T) (q : Querier T) (ctx : Context)
    (query : String) : Call T :=
  let raw := q.db.QueryRowContext ctx query []
  let scanables := newScanableItems [rt.ref]
  match raw.scan scanables.values rt.zero with
  | (val, some err) =>
    ⟨val, some err, [Event.queryRowContext ctx query [], Event.rowScan scanables.values]⟩
  | (val, none) =>
    ⟨val, raw.err,
      [Event.queryRowContext ctx query [], Event.rowScan scanables.values, Event.rowErr]⟩

/-- The method `QueryRaw(ctx, query, args...)`. -/
def QueryRaw {T : Type} (rt : ResultType T) (q : Querier T) (ctx : Context)
    (query : String) (args : List AnyVal) : Call T :=
  let raw := q.db.QueryRowContext ctx query args
  let scanables := newScanableItems [rt.ref]
  match raw.scan scanables.values rt.zero with
  | (val, some err) =>
    ⟨val, some err, [Event.queryRowContext ctx query args, Event.rowScan scanables.values]⟩
  | (val, none) =>
    ⟨val, none, [Event.queryRowContext ctx query args, Event.rowScan scanables.values]⟩

/-! ## Vocabulary of the properties -/

/-- The slots that `Query`, `QueryOne` and `QueryRaw` hand to `Scan` for the result
type: `newScanableItems(&val).values()`. -/
def slotsOf {T : Type} (rt : ResultType T) : List AnyVal :=
  (newScanableItems [rt.ref]).values

/-- The scan of `row` into a fresh zero value returns a nil error. -/
def scanOk {T : Type} (rt : ResultType T) (row : ScanFn T) : Prop :=
  (row (slotsOf rt) rt.zero).2 = none

/-- The value that `val` holds after `row` was scanned into a fresh zero value. -/
def scanned {T : Type} (rt : ResultType T) (row : ScanFn T) : T :=
  (row (slotsOf rt) rt.zero).1

/-- The statement texts handed to the handle's `QueryContext`, in call order. -/
def executed : List Event → List String
  | [] => []
  | Event.queryContext _ query _ :: rest => query :: executed rest
  | _ :: rest => executed rest

/-- The argument lists handed to the handle's `QueryContext`, in call order. -/
def executedArgs : List Event → List (List AnyVal)
  | [] => []
  | Event.queryContext _ _ args :: rest => args :: executedArgs rest
  | _ :: rest => executedArgs rest

/-- The text `s` ends with `t`. -/
def endsWith (s t : String) : Prop := t.data <:+ s.data

instance (s t : String) : Decidable (endsWith s t) := by
  unfold endsWith; infer_instance

/-! ## Concrete inputs -/

/-- A context value for the examples. -/
def ctx0 : Context := ⟨0⟩

/-- The result type `int64`: zero value `0`, and `&val` is a `*int64`. -/
def rtInt64 : ResultType Int := ⟨0, AnyVal.ptr Elem.int64 100⟩

/-- A row whose scan stores `n` in `val` and succeeds. -/
def rowStoring (n : Int) : ScanFn Int := fun _ _ => (n, none)

/-- A row whose scan fails, leaving `val` as it was. -/
def rowFailing (text : String) : ScanFn Int := fun _ v => (v, some (Error.msg text))

/-- A handle whose `QueryContext` always yields the cursor `raws` and whose
`QueryRowContext` always yields `raw`. -/
def dbOf (raws : Rows Int) (raw : Row Int) : DBTX Int :=
  ⟨fun _ _ _ => Except.ok raws, fun _ _ _ => raw⟩

/-- A single-row handle that scans `0` successfully and has no deferred error. -/
def rowPlain : Row Int := ⟨rowStoring 0, none⟩

/-- A cursor of one row that scans, which then reports a terminal iteration error. -/
def rowsIterErr : Rows Int := ⟨[rowStoring 7], none, some (Error.msg "connection lost")⟩

/-- A cursor whose first row fails to scan; a second row would follow. -/
def rowsScanFail : Rows Int := ⟨[rowFailing "converting NULL to int64", rowStoring 2], none, none⟩

/-- A cursor of two rows that scan, closing cleanly. -/
def rowsTwo : Rows Int := ⟨[rowStoring 7, rowStoring 9], none, none⟩

/-- A cursor of one row that scans, whose close and terminal error are both non-nil. -/
def rowsBothErr : Rows Int :=
  ⟨[rowStoring 7], some (Error.msg "close failed"), some (Error.msg "connection lost")⟩

/-- A single-row handle whose scan succeeds while `Err()` is non-nil. -/
def rowDeferred : Row Int := ⟨rowStoring 5, some (Error.msg "sql: no rows in result set")⟩

/-- Two values implementing `Scaneable`, with two fields and one field. -/
def memberA : AnyVal := AnyVal.scaneable 1 [AnyVal.ptr Elem.int64 10, AnyVal.ptr Elem.string 11]

/-- The second member. -/
def memberB : AnyVal := AnyVal.scaneable 2 [AnyVal.ptr Elem.bool 12]

/-- A composite whose `Fields()` concatenates those of `memberA` and `memberB`. -/
def composite : AnyVal :=
  AnyVal.scaneable 3 [AnyVal.ptr Elem.int64 10, AnyVal.ptr Elem.string 11, AnyVal.ptr Elem.bool 12]

/-! ## Field resolution -/

theorem newScanableItems_single (item : AnyVal) :
    newScanableItems [item] = (add [] item).1 := rfl

theorem add_snd (s : scanableItems) (item : AnyVal) : (add s item).2 = false := by
  cases item <;> simp [add]
  split <;> rfl

theorem add_scaneable (s : scanableItems) (item : AnyVal) (fs : List AnyVal)
    (h : item.Fields = some fs) : (add s item).1 = s ++ fs := by
  cases item <;> simp [AnyVal.Fields] at h
  subst h
  simp [add]

theorem add_switch_ptr (s : scanableItems) (elem : Elem) (addr : Nat)
    (h : elem.inSwitch = true) :
    (add s (AnyVal.ptr elem addr)).1 = s ++ [AnyVal.ptr elem addr] := by
  simp [add, h]

theorem isScaneable_fields (m : AnyVal) (h : m.isScaneable = true) :
    m.Fields = some ((m.Fields).getD []) := by
  cases m <;> simp [AnyVal.isScaneable] at h
  simp [AnyVal.Fields]

theorem foldl_add_scaneable (ms : List AnyVal) (hms : ∀ m ∈ ms, m.isScaneable = true)
    (s : scanableItems) :
    ms.foldl (fun s item => (add s item).1) s
      = s ++ ms.flatMap (fun m => (m.Fields).getD []) := by
  induction ms generalizing s with
  | nil => simp
  | cons m rest ih =>
    have hm := isScaneable_fields m (hms m (List.mem_cons_self _ _))
    rw [List.foldl_cons, ih (fun x hx => hms x (List.mem_cons_of_mem _ hx)),
      add_scaneable s m _ hm, List.flatMap_cons, List.append_assoc]

/-- Every pointer type listed in the switch contributes the candidate itself as the
only slot. -/
theorem switch_ptr_one_slot (elem : Elem) (addr : Nat) (h : elem.inSwitch = true) :
    (newScanableItems [AnyVal.ptr elem addr]).values = [AnyVal.ptr elem addr] := by
  simp [newScanableItems_single, scanableItems.values, add_switch_ptr _ _ _ h]

/-- C5, evaluated where it fails: a `*int16` and a `*uint32`, neither of which implements
the protocol, resolve to no slot at all (the switch lists neither type), while the
claim promises the candidate itself as the single slot. -/
theorem C5_int16_uint32_no_slot :
    (AnyVal.ptr Elem.int16 1).isScaneable = false
    ∧ (newScanableItems [AnyVal.ptr Elem.int16 1]).values = []
    ∧ (newScanableItems [AnyVal.ptr Elem.int16 1]).values ≠ [AnyVal.ptr Elem.int16 1]
    ∧ (AnyVal.ptr Elem.uint32 2).isScaneable = false
    ∧ (newScanableItems [AnyVal.ptr Elem.uint32 2]).values = []
    ∧ (newScanableItems [AnyVal.ptr Elem.uint32 2]).values ≠ [AnyVal.ptr Elem.uint32 2] := by
  refine ⟨rfl, rfl, ?_, rfl, rfl, ?_⟩
  · intro h
    have h2 : (newScanableItems [AnyVal.ptr Elem.int16 1]).values = [] := rfl
    rw [h2] at h
    cases h
  · intro h
    have h2 : (newScanableItems [AnyVal.ptr Elem.uint32 2]).values = [] := rfl
    rw [h2] at h
    cases h

/-- C6: when every member implements the protocol and the composite's `Fields()` is the
concatenation of the members' `Fields()`, the slots resolved for the composite are the
concatenation of the slots resolved for each member alone, and are the slots resolved
for the candidate list of the members; a single protocol-implementing candidate
resolves to exactly its `Fields()`. -/
theorem C6_composite_slots (ms : List AnyVal) (c : AnyVal)
    (hms : ∀ m ∈ ms, m.isScaneable = true)
    (hc : c.Fields = some (ms.flatMap (fun m => (m.Fields).getD []))) :
    (newScanableItems [c]).values = ms.flatMap (fun m => (newScanableItems [m]).values)
    ∧ (newScanableItems [c]).values = (newScanableItems ms).values
    ∧ (∀ x fs, x.Fields = some fs → (newScanableItems [x]).values = fs) := by
  have single : ∀ x fs, x.Fields = some fs → (newScanableItems [x]).values = fs := by
    intro x fs hx
    simp [newScanableItems_single, scanableItems.values, add_scaneable [] x fs hx]
  have hlist : (newScanableItems ms).values = ms.flatMap (fun m => (m.Fields).getD []) := by
    simp [newScanableItems, scanableItems.values, foldl_add_scaneable ms hms]
  have hmem : ms.flatMap (fun m => (newScanableItems [m]).values)
      = ms.flatMap (fun m => (m.Fields).getD []) := by
    clear hc hlist
    induction ms with
    | nil => rfl
    | cons m rest ih =>
      rw [List.flatMap_cons, List.flatMap_cons,
        ih (fun x hx => hms x (List.mem_cons_of_mem _ hx)),
        single m _ (isScaneable_fields m (hms m (List.mem_cons_self _ _)))]
  exact ⟨by rw [single c _ hc, hmem], by rw [single c _ hc, hlist], single⟩

/-- C6 at a concrete composite of two members. -/
theorem C6_composite_slots_witness :
    (∀ m ∈ [memberA, memberB], m.isScaneable = true)
    ∧ composite.Fields = some ([memberA, memberB].flatMap (fun m => (m.Fields).getD []))
    ∧ ((newScanableItems [composite]).values
        = [memberA, memberB].flatMap (fun m => (newScanableItems [m]).values)
      ∧ (newScanableItems [composite]).values = (newScanableItems [memberA, memberB]).values
      ∧ (∀ x fs, x.Fields = some fs → (newScanableItems [x]).values = fs)) :=
  have h1 : ∀ m ∈ [memberA, memberB], m.isScaneable = true := by
    intro m hm
    simp at hm
    rcases hm with rfl | rfl <;> rfl
  ⟨h1, rfl, C6_composite_slots [memberA, memberB] composite h1 rfl⟩

/-- C10: a candidate that matches no arm of the switch (not protocol-implementing, not a
`[]Scaneable`, not one of the listed pointer types) leaves the accumulated slots
unchanged, `add` returns false without raising anything, and resolving that single
candidate yields no slot. -/
theorem C10_unmatched_dropped (s : scanableItems) (item : AnyVal)
    (h1 : item.isScaneable = false) (h2 : item.isScaneableSlice = false)
    (h3 : item.isSwitchPtr = false) :
    add s item = (s, false) ∧ (newScanableItems [item]).values = [] := by
  cases item <;>
    simp_all [AnyVal.isScaneable, AnyVal.isScaneableSlice, AnyVal.isSwitchPtr, add,
      newScanableItems_single, scanableItems.values]

/-- C10 at a pointer to a boolean, added to one slot already accumulated. -/
theorem C10_unmatched_dropped_witness :
    (AnyVal.ptr Elem.bool 5).isScaneable = false
    ∧ (AnyVal.ptr Elem.bool 5).isScaneableSlice = false
    ∧ (AnyVal.ptr Elem.bool 5).isSwitchPtr = false
    ∧ (add [AnyVal.ptr Elem.int 4] (AnyVal.ptr Elem.bool 5) = ([AnyVal.ptr Elem.int 4], false)
      ∧ (newScanableItems [AnyVal.ptr Elem.bool 5]).values = []) :=
  ⟨rfl, rfl, rfl, C10_unmatched_dropped [AnyVal.ptr Elem.int 4] (AnyVal.ptr Elem.bool 5) rfl rfl rfl⟩

/-! ## The cursor loop -/

theorem loop_ok {T : Type} (rt : ResultType T) (rows : List (ScanFn T)) (items : List T)
    (h : ∀ row ∈ rows, scanOk rt row) :
    (Query.loop rt rows items).1 = none
    ∧ (Query.loop rt rows items).2.1 = items ++ rows.map (scanned rt) := by
  induction rows generalizing items with
  | nil => simp [Query.loop]
  | cons row rest ih =>
    have hrow : (row (slotsOf rt) rt.zero).2 = none := h row (List.mem_cons_self _ _)
    have ih2 := ih (items ++ [scanned rt row]) (fun x hx => h x (List.mem_cons_of_mem _ hx))
    unfold Query.loop
    simp only [slotsOf] at hrow ⊢
    split
    · rename_i e heq
      rw [heq] at hrow
      cases hrow
    · rename_i v heq
      have hv : scanned rt row = v := by simp [scanned, slotsOf, heq]
      rw [hv] at ih2
      simpa [hv] using ih2

theorem loop_fail {T : Type} (rt : ResultType T) (rows : List (ScanFn T)) (items : List T)
    (h : ∃ row ∈ rows, ¬ scanOk rt row) :
    ∃ e, (Query.loop rt rows items).1 = some e := by
  induction rows generalizing items with
  | nil => simp at h
  | cons row rest ih =>
    unfold Query.loop
    simp only
    split
    · rename_i e heq
      exact ⟨e, rfl⟩
    · rename_i v heq
      obtain ⟨r, hr, hbad⟩ := h
      rcases List.mem_cons.mp hr with rfl | hr
      · exact absurd (by simp [scanOk, slotsOf, heq]) hbad
      · exact ih _ ⟨r, hr, hbad⟩

theorem loop_no_close {T : Type} (rt : ResultType T) (rows : List (ScanFn T))
    (items : List T) : (Query.loop rt rows items).2.2.any Event.isClose = false := by
  induction rows generalizing items with
  | nil => rfl
  | cons row rest ih =>
    unfold Query.loop
    simp only
    split
    · rfl
    · simpa [Event.isClose] using ih _

theorem loop_executed {T : Type} (rt : ResultType T) (rows : List (ScanFn T))
    (items : List T) :
    executed (Query.loop rt rows items).2.2 = []
    ∧ executedArgs (Query.loop rt rows items).2.2 = [] := by
  induction rows generalizing items with
  | nil => exact ⟨rfl, rfl⟩
  | cons row rest ih =>
    unfold Query.loop
    simp only
    split
    · exact ⟨rfl, rfl⟩
    · simpa [executed, executedArgs] using ih _

theorem executed_append_close (evs : List Event) :
    executed (evs ++ [Event.rowsClose, Event.rowsErr]) = executed evs
    ∧ executedArgs (evs ++ [Event.rowsClose, Event.rowsErr]) = executedArgs evs := by
  induction evs with
  | nil => exact ⟨rfl, rfl⟩
  | cons ev rest ih => cases ev <;> simp [executed, executedArgs, ih]

/-! ## Query -/

theorem Query_handle_error {T : Type} (rt : ResultType T) (q : Querier T) (ctx : Context)
    (query : String) (args : List AnyVal) (e : Error)
    (hq : q.db.QueryContext ctx query args = Except.error e) :
    Query rt q ctx query args = ⟨none, some e, [Event.queryContext ctx query args]⟩ := by
  simp [Query, hq]

theorem Query_scans_ok {T : Type} (rt : ResultType T) (q : Querier T) (ctx : Context)
    (query : String) (args : List AnyVal) (raws : Rows T)
    (hq : q.db.QueryContext ctx query args = Except.ok raws)
    (hs : ∀ row ∈ raws.rows, scanOk rt row) :
    (Query rt q ctx query args).val = some (raws.rows.map (scanned rt))
    ∧ (Query rt q ctx query args).err = errorsJoin [raws.closeResult, raws.iterErr]
    ∧ (Query rt q ctx query args).trace.any Event.isClose = true := by
  have hl := loop_ok rt raws.rows [] hs
  simp only [Query, hq]
  split
  · rename_i e its evs heq
    rw [heq] at hl
    cases hl.1
  · rename_i its evs heq
    rw [heq] at hl
    simp at hl
    simp [hl, Event.isClose]

theorem Query_scan_fail {T : Type} (rt : ResultType T) (q : Querier T) (ctx : Context)
    (query : String) (args : List AnyVal) (raws : Rows T)
    (hq : q.db.QueryContext ctx query args = Except.ok raws)
    (hs : ∃ row ∈ raws.rows, ¬ scanOk rt row) :
    (Query rt q ctx query args).val = none
    ∧ (∃ e, (Query rt q ctx query args).err = some e)
    ∧ (Query rt q ctx query args).trace.any Event.isClose = false := by
  obtain ⟨e, he⟩ := loop_fail rt raws.rows [] hs
  have hc := loop_no_close rt raws.rows []
  simp only [Query, hq]
  split
  · rename_i e2 its evs heq
    rw [heq] at hc
    simp only at hc
    simp only [List.any_cons, hc]
    exact ⟨trivial, ⟨e2, rfl⟩, rfl⟩
  · rename_i its evs heq
    rw [heq] at he
    cases he

/-- The cursor that the handle returned is closed by `Query` exactly when no row scan
fails. -/
theorem Query_closes_iff {T : Type} (rt : ResultType T) (q : Querier T) (ctx : Context)
    (query : String) (args : List AnyVal) (raws : Rows T)
    (hq : q.db.QueryContext ctx query args = Except.ok raws) :
    (Query rt q ctx query args).trace.any Event.isClose = true
      ↔ ∀ row ∈ raws.rows, scanOk rt row := by
  constructor
  · intro h
    by_contra hn
    have hx : ∃ row ∈ raws.rows, ¬ scanOk rt row := by
      push_neg at hn
      exact hn
    rw [(Query_scan_fail rt q ctx query args raws hq hx).2.2] at h
    cases h
  · intro h
    exact (Query_scans_ok rt q ctx query args raws hq h).2.2

theorem Query_executed {T : Type} (rt : ResultType T) (q : Querier T) (ctx : Context)
    (query : String) (args : List AnyVal) :
    executed (Query rt q ctx query args).trace = [query]
    ∧ executedArgs (Query rt q ctx query args).trace = [args] := by
  unfold Query
  split
  · exact ⟨rfl, rfl⟩
  · rename_i raws hq
    have hl := loop_executed rt raws.rows []
    split
    · rename_i e its evs heq
      rw [heq] at hl
      simpa [executed, executedArgs] using hl
    · rename_i its evs heq
      rw [heq] at hl
      simpa [executed, executedArgs, executed_append_close] using hl

theorem errorsJoin_pair (c e : Option Error) :
    errorsJoin [c, e] =
      match c, e with
      | none, none => none
      | some x, none => some (Error.join [x])
      | none, some y => some (Error.join [y])
      | some x, some y => some (Error.join [x, y]) := by
  cases c <;> cases e <;> rfl

/-- The two early failure exits of `Query` return the error with an absent sequence:
when the handle's query fails, and when a row scan fails (the rows appended before it
are discarded). -/
theorem Query_early_failure_absent {T : Type} (rt : ResultType T) (q : Querier T)
    (ctx : Context) (query : String) (args : List AnyVal) :
    (∀ e, q.db.QueryContext ctx query args = Except.error e →
        (Query rt q ctx query args).val = none ∧ (Query rt q ctx query args).err = some e)
    ∧ (∀ raws, q.db.QueryContext ctx query args = Except.ok raws →
        (∃ row ∈ raws.rows, ¬ scanOk rt row) →
        (Query rt q ctx query args).val = none
        ∧ ∃ e, (Query rt q ctx query args).err = some e) := by
  constructor
  · intro e hq
    rw [Query_handle_error rt q ctx query args e hq]
    exact ⟨rfl, rfl⟩
  · intro raws hq hx
    have h := Query_scan_fail rt q ctx query args raws hq hx
    exact ⟨h.1, h.2.1⟩

/-- C1, evaluated where it fails: on a cursor whose single row scans and whose terminal
iteration error is non-nil, `Query` returns the joined, non-nil failure together with
the one-element sequence `[7]`, which is neither absent nor empty, whereas the claim
requires an absent or empty sequence whenever the failure is non-nil. -/
theorem C1_teardown_failure_keeps_rows :
    (New (dbOf rowsIterErr rowPlain)).db.QueryContext ctx0 "SELECT id FROM t" []
      = Except.ok rowsIterErr
    ∧ (Query rtInt64 (New (dbOf rowsIterErr rowPlain)) ctx0 "SELECT id FROM t" []).err
      = some (Error.join [Error.msg "connection lost"])
    ∧ (Query rtInt64 (New (dbOf rowsIterErr rowPlain)) ctx0 "SELECT id FROM t" []).val
      = some [7]
    ∧ ¬ ((Query rtInt64 (New (dbOf rowsIterErr rowPlain)) ctx0 "SELECT id FROM t" []).err ≠ none →
        ((Query rtInt64 (New (dbOf rowsIterErr rowPlain)) ctx0 "SELECT id FROM t" []).val = none
        ∨ (Query rtInt64 (New (dbOf rowsIterErr rowPlain)) ctx0 "SELECT id FROM t" []).val
            = some [])) := by
  have hv : (Query rtInt64 (New (dbOf rowsIterErr rowPlain)) ctx0 "SELECT id FROM t" []).val
      = some [7] := rfl
  have he : (Query rtInt64 (New (dbOf rowsIterErr rowPlain)) ctx0 "SELECT id FROM t" []).err
      = some (Error.join [Error.msg "connection lost"]) := rfl
  refine ⟨rfl, he, hv, ?_⟩
  rw [hv, he]
  intro h
  rcases h (by simp) with h | h
  · cases h
  · simp at h

/-- C2, evaluated where it fails: the handle returns a cursor without failure, the scan of
its first row fails, and `Query` returns that failure after the calls `QueryContext`,
`Next`, `Scan` only: `Close` is never called on the cursor. -/
theorem C2_scan_failure_leaves_cursor_open :
    (New (dbOf rowsScanFail rowPlain)).db.QueryContext ctx0 "SELECT id FROM t" []
      = Except.ok rowsScanFail
    ∧ (Query rtInt64 (New (dbOf rowsScanFail rowPlain)) ctx0 "SELECT id FROM t" []).err
      = some (Error.msg "converting NULL to int64")
    ∧ (Query rtInt64 (New (dbOf rowsScanFail rowPlain)) ctx0 "SELECT id FROM t" []).trace
      = [Event.queryContext ctx0 "SELECT id FROM t" [], Event.rowsNext,
          Event.rowsScan [AnyVal.ptr Elem.int64 100]]
    ∧ (Query rtInt64 (New (dbOf rowsScanFail rowPlain)) ctx0 "SELECT id FROM t" []).trace.any
        Event.isClose = false :=
  ⟨rfl, rfl, rfl, rfl⟩

/-- C3: when the handle returns a cursor, every one of its n rows scans, and the close
result and terminal iteration error are nil, `Query` returns a nil failure and a
non-absent sequence of exactly n values, the i-th being the value scanned from the
i-th row; with no rows the sequence is the initialised empty one. -/
theorem C3_rows_in_order {T : Type} (rt : ResultType T) (q : Querier T) (ctx : Context)
    (query : String) (args : List AnyVal) (raws : Rows T)
    (hq : q.db.QueryContext ctx query args = Except.ok raws)
    (hs : ∀ row ∈ raws.rows, scanOk rt row)
    (hc : raws.closeResult = none) (he : raws.iterErr = none) :
    (Query rt q ctx query args).err = none
    ∧ ∃ items, (Query rt q ctx query args).val = some items
        ∧ items.length = raws.rows.length
        ∧ (∀ i : Nat, items[i]? = (raws.rows[i]?).map (scanned rt))
        ∧ (raws.rows = [] → items = []) := by
  have h := Query_scans_ok rt q ctx query args raws hq hs
  refine ⟨?_, raws.rows.map (scanned rt), h.1, by simp, ?_, ?_⟩
  · rw [h.2.1, hc, he]
    rfl
  · intro i
    simp
  · intro hnil
    rw [hnil]
    rfl

/-- C3 at a cursor of two rows: the result is the two scanned values in order. -/
theorem C3_rows_in_order_witness :
    (New (dbOf rowsTwo rowPlain)).db.QueryContext ctx0 "SELECT id FROM t" [] = Except.ok rowsTwo
    ∧ (∀ row ∈ rowsTwo.rows, scanOk rtInt64 row)
    ∧ rowsTwo.closeResult = none ∧ rowsTwo.iterErr = none
    ∧ ((Query rtInt64 (New (dbOf rowsTwo rowPlain)) ctx0 "SELECT id FROM t" []).err = none
      ∧ ∃ items, (Query rtInt64 (New (dbOf rowsTwo rowPlain)) ctx0 "SELECT id FROM t" []).val
            = some items
          ∧ items.length = rowsTwo.rows.length
          ∧ (∀ i : Nat, items[i]? = (rowsTwo.rows[i]?).map (scanned rtInt64))
          ∧ (rowsTwo.rows = [] → items = [])) :=
  have hs : ∀ row ∈ rowsTwo.rows, scanOk rtInt64 row := by
    intro row hrow
    simp [rowsTwo] at hrow
    rcases hrow with rfl | rfl <;> rfl
  ⟨rfl, hs, rfl, rfl,
    C3_rows_in_order rtInt64 (New (dbOf rowsTwo rowPlain)) ctx0 "SELECT id FROM t" [] rowsTwo
      rfl hs rfl rfl⟩

/-- C4: when the handle returns a cursor and no row scan fails, the failure `Query`
returns is nil exactly when the close result and the terminal iteration error are both
nil; an iteration error alone or a close failure alone gives a joined failure wrapping
it, and when both are non-nil the joined failure wraps both, close result first. -/
theorem C4_teardown_errors_joined {T : Type} (rt : ResultType T) (q : Querier T)
    (ctx : Context) (query : String) (args : List AnyVal) (raws : Rows T)
    (hq : q.db.QueryContext ctx query args = Except.ok raws)
    (hs : ∀ row ∈ raws.rows, scanOk rt row) :
    ((Query rt q ctx query args).err = none ↔ raws.closeResult = none ∧ raws.iterErr = none)
    ∧ (∀ e, raws.closeResult = none → raws.iterErr = some e →
        (Query rt q ctx query args).err = some (Error.join [e]))
    ∧ (∀ c, raws.closeResult = some c → raws.iterErr = none →
        (Query rt q ctx query args).err = some (Error.join [c]))
    ∧ (∀ c e, raws.closeResult = some c → raws.iterErr = some e →
        (Query rt q ctx query args).err = some (Error.join [c, e])) := by
  have h := (Query_scans_ok rt q ctx query args raws hq hs).2.1
  rw [h, errorsJoin_pair]
  refine ⟨?_, ?_, ?_, ?_⟩
  · cases raws.closeResult <;> cases raws.iterErr <;> simp
  · intro e h1 h2
    rw [h1, h2]
  · intro c h1 h2
    rw [h1, h2]
  · intro c e h1 h2
    rw [h1, h2]

/-- C4 at a cursor whose close result and terminal iteration error are both non-nil. -/
theorem C4_teardown_errors_joined_witness :
    (New (dbOf rowsBothErr rowPlain)).db.QueryContext ctx0 "SELECT id FROM t" []
      = Except.ok rowsBothErr
    ∧ (∀ row ∈ rowsBothErr.rows, scanOk rtInt64 row)
    ∧ (Query rtInt64 (New (dbOf rowsBothErr rowPlain)) ctx0 "SELECT id FROM t" []).err
      = some (Error.join [Error.msg "close failed", Error.msg "connection lost"]) :=
  have hs : ∀ row ∈ rowsBothErr.rows, scanOk rtInt64 row := by
    intro row hrow
    simp [rowsBothErr] at hrow
    subst hrow
    rfl
  ⟨rfl, hs,
    (C4_teardown_errors_joined rtInt64 (New (dbOf rowsBothErr rowPlain)) ctx0
      "SELECT id FROM t" [] rowsBothErr rfl hs).2.2.2 _ _ rfl rfl⟩

/-! ## PaginateQuery -/

theorem Fprintf_limit (w : String) (n : Int) :
    Fprintf w " LIMIT %d " n = (w ++ " LIMIT " ++ toString n ++ " ", none) := by
  have h : formatD " LIMIT %d ".data n = " LIMIT ".data ++ ((toString n).data ++ " ".data) := rfl
  simp only [Fprintf, h]
  congr 1
  apply String.ext
  simp [String.data_append]

theorem Fprintf_offset (w : String) (n : Int) :
    Fprintf w " OFFSET %d " n = (w ++ " OFFSET " ++ toString n ++ " ", none) := by
  have h : formatD " OFFSET %d ".data n = " OFFSET ".data ++ ((toString n).data ++ " ".data) :=
    rfl
  simp only [Fprintf, h]
  congr 1
  apply String.ext
  simp [String.data_append]

theorem PaginateQuery_eq {T : Type} (rt : ResultType T) (q : Querier T) (ctx : Context)
    (skip limit : Int) (query : String) (args : List AnyVal) :
    PaginateQuery rt q ctx skip limit query args
      = Query rt q ctx
          ((if limit > 0 then query ++ " LIMIT " ++ toString limit ++ " " else query)
            ++ (if skip > 0 then " OFFSET " ++ toString skip ++ " " else "")) args := by
  unfold PaginateQuery
  simp only [String.empty_append, Fprintf_limit, Fprintf_offset]
  by_cases hl : limit > 0 <;> by_cases hs : skip > 0
  · simp only [if_pos hl, if_pos hs, String.append_assoc]
  · simp only [if_pos hl, if_neg hs, String.append_empty]
  · simp only [if_neg hl, if_pos hs, String.append_assoc]
  · simp only [if_neg hl, if_neg hs, String.append_empty]

/-- C7 refuted as stated: for `PaginateQuery(ctx, 20, 10, q)` the only statement text
executed is `q` followed by `" LIMIT 10 "` and `" OFFSET 20 "`, which does not end with
`"LIMIT 10 OFFSET 20"`: two blanks separate the clauses and one blank follows. -/
theorem C7_suffix_counterexample :
    executed (PaginateQuery rtInt64 (New (dbOf rowsTwo rowPlain)) ctx0 20 10
        "SELECT id FROM t" []).trace = ["SELECT id FROM t LIMIT 10  OFFSET 20 "]
    ∧ ¬ endsWith "SELECT id FROM t LIMIT 10  OFFSET 20 " "LIMIT 10 OFFSET 20" :=
  ⟨rfl, by decide⟩

/-- C7 as amended: for skip > 0 and limit > 0, `PaginateQuery` hands to `Query` the text
`q` followed by `" LIMIT <limit> "` and `" OFFSET <skip> "` with the arguments
unchanged; that text is the only one executed and it ends with
`"LIMIT <limit>  OFFSET <skip> "`, LIMIT before OFFSET, both in decimal. -/
theorem C7_limit_then_offset {T : Type} (rt : ResultType T) (q : Querier T) (ctx : Context)
    (skip limit : Int) (query : String) (args : List AnyVal)
    (hskip : skip > 0) (hlimit : limit > 0) :
    PaginateQuery rt q ctx skip limit query args
      = Query rt q ctx
          (query ++ " LIMIT " ++ toString limit ++ " " ++ " OFFSET " ++ toString skip ++ " ")
          args
    ∧ executed (PaginateQuery rt q ctx skip limit query args).trace
      = [query ++ " LIMIT " ++ toString limit ++ " " ++ " OFFSET " ++ toString skip ++ " "]
    ∧ endsWith
        (query ++ " LIMIT " ++ toString limit ++ " " ++ " OFFSET " ++ toString skip ++ " ")
        ("LIMIT " ++ toString limit ++ "  OFFSET " ++ toString skip ++ " ") := by
  have h : PaginateQuery rt q ctx skip limit query args
      = Query rt q ctx
          (query ++ " LIMIT " ++ toString limit ++ " " ++ " OFFSET " ++ toString skip ++ " ")
          args := by
    rw [PaginateQuery_eq]
    simp only [if_pos hskip, if_pos hlimit, String.append_assoc]
  refine ⟨h, ?_, ?_⟩
  · rw [h]
    exact (Query_executed rt q ctx _ args).1
  · unfold endsWith
    refine ⟨query.data ++ " ".data, ?_⟩
    simp only [String.data_append, List.append_assoc]
    rfl

/-- C7 as amended, at skip 20 and limit 10. -/
theorem C7_limit_then_offset_witness :
    (20 : Int) > 0 ∧ (10 : Int) > 0
    ∧ (PaginateQuery rtInt64 (New (dbOf rowsTwo rowPlain)) ctx0 20 10 "SELECT id FROM t" []
        = Query rtInt64 (New (dbOf rowsTwo rowPlain)) ctx0
            ("SELECT id FROM t" ++ " LIMIT " ++ toString (10 : Int) ++ " " ++ " OFFSET "
              ++ toString (20 : Int) ++ " ") []
      ∧ executed (PaginateQuery rtInt64 (New (dbOf rowsTwo rowPlain)) ctx0 20 10
          "SELECT id FROM t" []).trace
        = ["SELECT id FROM t" ++ " LIMIT " ++ toString (10 : Int) ++ " " ++ " OFFSET "
            ++ toString (20 : Int) ++ " "]
      ∧ endsWith
          ("SELECT id FROM t" ++ " LIMIT " ++ toString (10 : Int) ++ " " ++ " OFFSET "
            ++ toString (20 : Int) ++ " ")
          ("LIMIT " ++ toString (10 : Int) ++ "  OFFSET " ++ toString (20 : Int) ++ " ")) :=
  ⟨by decide, by decide,
    C7_limit_then_offset rtInt64 (New (dbOf rowsTwo rowPlain)) ctx0 20 10 "SELECT id FROM t" []
      (by decide) (by decide)⟩

/-- C8: with skip = 0 no OFFSET clause is appended (the text handed to `Query` is `q`
followed by the LIMIT clause only when limit > 0); with limit = 0 no LIMIT clause is
appended (the text is `q` followed by the OFFSET clause only when skip > 0); with both
zero `PaginateQuery` is exactly `Query(ctx, q, args...)`: the one text executed is `q`
and the one argument list handed over is `args`. -/
theorem C8_zero_adds_no_clause {T : Type} (rt : ResultType T) (q : Querier T) (ctx : Context)
    (skip limit : Int) (query : String) (args : List AnyVal) :
    PaginateQuery rt q ctx 0 limit query args
      = Query rt q ctx
          (if limit > 0 then query ++ " LIMIT " ++ toString limit ++ " " else query) args
    ∧ PaginateQuery rt q ctx skip 0 query args
      = Query rt q ctx
          (if skip > 0 then query ++ " OFFSET " ++ toString skip ++ " " else query) args
    ∧ PaginateQuery rt q ctx 0 0 query args = Query rt q ctx query args
    ∧ executed (PaginateQuery rt q ctx 0 0 query args).trace = [query]
    ∧ executedArgs (PaginateQuery rt q ctx 0 0 query args).trace = [args] := by
  have h00 : PaginateQuery rt q ctx 0 0 query args = Query rt q ctx query args := by
    rw [PaginateQuery_eq]
    simp
  refine ⟨?_, ?_, h00, ?_, ?_⟩
  · rw [PaginateQuery_eq]
    simp
  · rw [PaginateQuery_eq]
    by_cases hs : skip > 0 <;> simp [hs, String.append_assoc]
  · rw [h00]
    exact (Query_executed rt q ctx query args).1
  · rw [h00]
    exact (Query_executed rt q ctx query args).2

/-! ## QueryOne and QueryRaw -/

/-- C9: for a single-row handle `raw`, when the scan into the resolved slots succeeds
`QueryOne` returns the scanned value with `raw.Err()` as its failure (so a non-nil
deferred error `e` is returned) while `QueryRaw` returns the scanned value with a nil
failure; when the scan fails with `e`, both return the value as the scan left it
together with exactly `e`. -/
theorem C9_deferred_error_asymmetry {T : Type} (rt : ResultType T) (q : Querier T)
    (ctx : Context) (query : String) (args : List AnyVal) (raw : Row T)
    (hone : q.db.QueryRowContext ctx query [] = raw)
    (hraw : q.db.QueryRowContext ctx query args = raw) :
    ((raw.scan (slotsOf rt) rt.zero).2 = none →
        (QueryOne rt q ctx query).err = raw.err
        ∧ (QueryOne rt q ctx query).val = (raw.scan (slotsOf rt) rt.zero).1
        ∧ (QueryRaw rt q ctx query args).err = none
        ∧ (QueryRaw rt q ctx query args).val = (raw.scan (slotsOf rt) rt.zero).1
        ∧ (∀ e, raw.err = some e →
            (QueryOne rt q ctx query).err = some e ∧ (QueryRaw rt q ctx query args).err = none))
    ∧ (∀ e, (raw.scan (slotsOf rt) rt.zero).2 = some e →
        (QueryOne rt q ctx query).err = some e
        ∧ (QueryOne rt q ctx query).val = (raw.scan (slotsOf rt) rt.zero).1
        ∧ (QueryRaw rt q ctx query args).err = some e
        ∧ (QueryRaw rt q ctx query args).val = (raw.scan (slotsOf rt) rt.zero).1) := by
  unfold QueryOne QueryRaw
  simp only [hone, hraw, slotsOf]
  constructor
  · intro h
    split
    · rename_i v e heq
      rw [heq] at h
      cases h
    · rename_i v heq
      simp [heq]
  · intro e h
    split
    · rename_i v e2 heq
      rw [heq] at h
      simp at h
      simp [heq, h]
    · rename_i v heq
      rw [heq] at h
      cases h

/-- C9 at a single-row handle whose scan succeeds while its deferred error is non-nil:
`QueryOne` returns that error and `QueryRaw` returns nil. -/
theorem C9_deferred_error_asymmetry_witness :
    (New (dbOf rowsTwo rowDeferred)).db.QueryRowContext ctx0 "SELECT id FROM t" [] = rowDeferred
    ∧ (New (dbOf rowsTwo rowDeferred)).db.QueryRowContext ctx0 "SELECT id FROM t"
        [AnyVal.other "int 3"] = rowDeferred
    ∧ (QueryOne rtInt64 (New (dbOf rowsTwo rowDeferred)) ctx0 "SELECT id FROM t").err
        = some (Error.msg "sql: no rows in result set")
    ∧ (QueryRaw rtInt64 (New (dbOf rowsTwo rowDeferred)) ctx0 "SELECT id FROM t"
        [AnyVal.other "int 3"]).err = none :=
  ⟨rfl, rfl,
    ((C9_deferred_error_asymmetry rtInt64 (New (dbOf rowsTwo rowDeferred)) ctx0
      "SELECT id FROM t" [AnyVal.other "int 3"] rowDeferred rfl rfl).1 rfl).2.2.2.2 _ rfl⟩

end Sqlquery
